import Mathlib

/-!
# Verification of the call-tracing utility `backtrace.py`

A shallow embedding of the tracer in `src/backtrace.py`: the frame filter
`_should_trace`, the trace-event intake `_TraceContext.trace_func`, the two
formatters (`_format_plain` and `_build_tree`), the output sink
`output_trace`, the wrapping combinator `trace_calls.decorator.wrapper`, and
the one-shot warning reporter `log_warning`.

Conventions of the embedding:
* Python strings are `String`, line numbers are `Nat`.
* `os.path.abspath` is treated as the identity: the functions below receive
  already-absolute paths, as the claims quantify over paths.
* `os.path.relpath(·, cwd)` (the body of `_get_relative_path`) is an OS
  operation; it is carried as the `relp` field of `TraceEnv` and applied
  exactly where the source applies `_get_relative_path`.
* Frame objects are modelled by the fields the source reads: code filename,
  code-object identity, current line, frame identity, `co_name`, the result
  of the module-level reverse lookup over `f_locals`, and the caller's
  filename/line (`f_back`).  Frame/code identity comparison (`==`/`is` on
  Python objects) becomes comparison of the identity numbers.
-/

set_option autoImplicit false

/-- Substring test on `List Char`, the semantics of Python's `in` operator
on strings (an empty pattern occurs in every string). -/
def listContainsSub (pat : List Char) : List Char → Bool
  | [] => pat.isEmpty
  | c :: rest => pat.isPrefixOf (c :: rest) || listContainsSub pat rest

/-- `strContains s pat` is Python's `pat in s` for strings. -/
def strContains (s pat : String) : Bool :=
  listContainsSub pat.data s.data

/-- The process-wide constants the tracer reads at import time
(`_backtrace_file`, `sys.prefix`, `_cwd = os.getcwd()`), together with the
relative-path resolver `_get_relative_path` (an OS call, carried abstractly). -/
structure TraceEnv where
  backtraceFile : String
  prefixDir : String
  cwd : String
  relp : String → String

/-- `_should_trace` from the source: false for the tracer's own file, for any
absolute path containing the substrings `site-packages` or `dist-packages`,
and for any path containing `sys.prefix` as a substring while not containing
the working directory as a substring; true otherwise. -/
def _should_trace (env : TraceEnv) (abspath : String) : Bool :=
  if abspath = env.backtraceFile then false
  else if strContains abspath "site-packages" then false
  else if strContains abspath "dist-packages" then false
  else if strContains abspath env.prefixDir && !(strContains abspath env.cwd) then false
  else true

/-- The caller fields the source reads from `frame.f_back`. -/
structure FrameBack where
  codeFile : String
  lineno : Nat
deriving DecidableEq

/-- The fields of a Python frame object that `trace_func`,
`_get_function_name` and `_should_trace` read.  `moduleBinding` is the result
of the reverse lookup over `f_locals` performed by `_get_function_name` when
`co_name` is `<module>` (`none` when no local callable shares the frame's
code object). -/
structure Frame where
  codeFile : String
  codeId : Nat
  lineno : Nat
  frameId : Nat
  coName : String
  moduleBinding : Option String
  fBack : Option FrameBack
deriving DecidableEq

/-- `_get_function_name` from the source: the frame's `co_name`, except that
for module-level code the reverse lookup over the frame locals is consulted
first, falling back to `co_name` itself. -/
def _get_function_name (f : Frame) : String :=
  if f.coName = "<module>" then
    match f.moduleBinding with
    | some n => n
    | none => f.coName
  else f.coName

/-- The tag of a recorded trace event; exception events carry the exception
type name and stringified value (the payload stored in the event tuple). -/
inductive EventKind where
  | call
  | ret
  | exc (excType : String) (excValue : String)
deriving DecidableEq

/-- One recorded event tuple `(kind, path, lineno, func_name, payload)`. -/
structure Event where
  kind : EventKind
  path : String
  lineno : Nat
  funcName : String
deriving DecidableEq

/-- `e.isCall` tests for a Call event. -/
def Event.isCall (e : Event) : Bool :=
  match e.kind with
  | .call => true
  | _ => false

/-- `e.isRet` tests for a Return event. -/
def Event.isRet (e : Event) : Bool :=
  match e.kind with
  | .ret => true
  | _ => false

/-- The `exception_info` slot: exception type name, stringified value,
relative path, line and function name of the last exception event. -/
structure ExcInfo where
  excType : String
  excValue : String
  relPath : String
  lineno : Nat
  funcName : String
deriving DecidableEq

/-- The mutable state of `_TraceContext` that `trace_func` touches. -/
structure Ctx where
  targetCode : Nat
  events : List Event
  exceptionInfo : Option ExcInfo
  started : Bool
  rootFrame : Option Nat
deriving DecidableEq

/-- A raw runtime hook event `(event, arg)` as delivered to `trace_func`. -/
inductive RawEvent where
  | call
  | ret
  | exc (excType : String) (excValue : String)
deriving DecidableEq

/-- `_TraceContext.trace_func` from the source, as a state transformer on
`Ctx`: skip non-traceable files, open the recording gate on the first call
of the target code object (remembering the root frame), and once started
append one event per hook callback — Call events at the caller's location
when a caller exists and the frame is not the root frame, otherwise at the
frame's own location; Return and Exception events at the frame's own
location, the latter also overwriting `exception_info`. -/
def trace_func (env : TraceEnv) (ctx : Ctx) (frame : Frame) (ev : RawEvent) : Ctx :=
  if !(_should_trace env frame.codeFile) then ctx
  else
    let ctx1 :=
      if !ctx.started && frame.codeId == ctx.targetCode then
        { ctx with started := true, rootFrame := some frame.frameId }
      else ctx
    if !ctx1.started then ctx1
    else
      let funcName := _get_function_name frame
      let relPath := env.relp frame.codeFile
      match ev with
      | .call =>
        match frame.fBack with
        | some back =>
          if ctx1.rootFrame = some frame.frameId then
            { ctx1 with events := ctx1.events ++ [⟨.call, relPath, frame.lineno, funcName⟩] }
          else
            { ctx1 with events :=
                ctx1.events ++ [⟨.call, env.relp back.codeFile, back.lineno, funcName⟩] }
        | none =>
          { ctx1 with events := ctx1.events ++ [⟨.call, relPath, frame.lineno, funcName⟩] }
      | .ret =>
        { ctx1 with events := ctx1.events ++ [⟨.ret, relPath, frame.lineno, funcName⟩] }
      | .exc t v =>
        { ctx1 with
            exceptionInfo := some ⟨t, v, relPath, frame.lineno, funcName⟩,
            events := ctx1.events ++ [⟨.exc t v, relPath, frame.lineno, funcName⟩] }

/-- `"    " * depth` from Python: a negative depth yields the empty string. -/
def indentOf (depth : Int) : String :=
  String.join (List.replicate depth.toNat "    ")

/-- `"\n".join(lines)` from Python. -/
def joinLines : List String → String
  | [] => ""
  | [l] => l
  | l :: ls => l ++ "\n" ++ joinLines ls

/-- One iteration of the event loop of `_format_plain`: the accumulator is
the `lines` list and the `depth` counter (a Python int, so it may go
negative on unmatched Returns).  Call prints at the current depth then
increments; Return decrements first then prints (no line number);
Exception prints at the current depth, marked `EXCEPTION HERE` on a failing
run and `handled exception` otherwise. -/
def formatPlainStep (isFailure : Bool) (acc : List String × Int) (e : Event) :
    List String × Int :=
  let indent := indentOf acc.2
  match e.kind with
  | .call =>
    (acc.1 ++ [indent ++ "↳ " ++ e.path ++ ":" ++ toString e.lineno ++ " (" ++ e.funcName ++ ")"],
     acc.2 + 1)
  | .ret =>
    (acc.1 ++ [indentOf (acc.2 - 1) ++ "↰ " ++ e.path ++ " (" ++ e.funcName ++ ")"],
     acc.2 - 1)
  | .exc t v =>
    if isFailure then
      (acc.1 ++ [indent ++ "✗ " ++ e.path ++ ":" ++ toString e.lineno ++ " (" ++ e.funcName
          ++ ") <-- EXCEPTION HERE: " ++ t ++ ": " ++ v], acc.2)
    else
      (acc.1 ++ [indent ++ "⚠ " ++ e.path ++ ":" ++ toString e.lineno ++ " (" ++ e.funcName
          ++ ") (handled exception: " ++ t ++ ")"], acc.2)

/-- The success-style header of `_format_plain`: the first event's location
when any event exists, else the bare no-events variant. -/
def successHeader (events : List Event) : String :=
  match events with
  | [] => "EXECUTION TRACE (no exception)"
  | e :: _ => "EXECUTION TRACE (no exception) at " ++ e.path ++ ":" ++ toString e.lineno

/-- The header line of `_format_plain`: the last-exception header when the
run is failing and an exception was recorded, else the success-style header. -/
def formatHeader (events : List Event) (excInfo : Option ExcInfo) (isFailure : Bool) : String :=
  if isFailure then
    match excInfo with
    | some info =>
      "EXCEPTION: " ++ info.excType ++ ": " ++ info.excValue ++ " at "
        ++ info.relPath ++ ":" ++ toString info.lineno
    | none => successHeader events
  else successHeader events

/-- The `output` list built by `_format_plain`: header, the literal frame
lines, one body line per event, the closing frame line, and the status line. -/
def formatPlainLines (events : List Event) (excInfo : Option ExcInfo)
    (status : String) (isFailure : Bool) : List String :=
  formatHeader events excInfo isFailure
    :: "=== BACKTRACE ==="
    :: (List.foldl (formatPlainStep isFailure) ([], 0) events).1
    ++ ["=================", "STATUS: " ++ status]

/-- `_TraceContext._format_plain` from the source: the `output` list joined
with newlines. -/
def _format_plain (events : List Event) (excInfo : Option ExcInfo)
    (status : String) (isFailure : Bool) : String :=
  joinLines (formatPlainLines events excInfo status isFailure)

/-- A rendered tree node of the structured formatter (the renderer's `Tree`
objects, with markup labels kept verbatim). -/
inductive RTree where
  | node : String → List RTree → RTree

/-- A node of the tree builder's explicit stack: the node's label together
with the children attached to it so far. -/
structure TFrame where
  label : String
  children : List RTree

/-- The markup label of a Call node (also the root label built from the
first event). -/
def callLabel (path : String) (lineno : Nat) (funcName : String) : String :=
  "[cyan]↳[/cyan] " ++ path ++ ":" ++ toString lineno ++ " [yellow](" ++ funcName ++ ")[/yellow]"

/-- The markup label of a Return node (no line number). -/
def retLabel (path funcName : String) : String :=
  "[green]↰[/green] " ++ path ++ " [yellow](" ++ funcName ++ ")[/yellow]"

/-- The markup label of an Exception node, red on failing runs, dim
`handled exception` otherwise. -/
def excLabel (isFailure : Bool) (path : String) (lineno : Nat)
    (funcName t v : String) : String :=
  if isFailure then
    "[red]✗[/red] " ++ path ++ ":" ++ toString lineno ++ " [yellow](" ++ funcName
      ++ ")[/yellow] [red]<-- EXCEPTION: " ++ t ++ ": " ++ v ++ "[/red]"
  else
    "[yellow]⚠[/yellow] " ++ path ++ ":" ++ toString lineno ++ " [yellow](" ++ funcName
      ++ ")[/yellow] [dim]<-- handled exception: " ++ t ++ ": " ++ v ++ "[/dim]"

/-- One iteration of the event loop of `_build_tree`, on the explicit node
stack (head = top of stack, i.e. Python's `stack[-1]`).  Call pushes a fresh
node; Return adds a leaf to the top node and pops it into its parent, but
only when more than one element is on the stack (`if len(stack) > 1`);
Exception adds a leaf to the top node.  In the source a pushed node is
attached to its parent immediately by `stack[-1].add(label)`; here the
attachment is deferred to the pop (and to the final collapse), which yields
the same tree because no sibling is added to the parent while a child is on
the stack above it. -/
def buildStep (isFailure : Bool) (stack : List TFrame) (e : Event) : List TFrame :=
  match e.kind with
  | .call => ⟨callLabel e.path e.lineno e.funcName, []⟩ :: stack
  | .ret =>
    match stack with
    | top :: next :: rest =>
      let top1 : TFrame := ⟨top.label, top.children ++ [.node (retLabel e.path e.funcName) []]⟩
      ⟨next.label, next.children ++ [.node top1.label top1.children]⟩ :: rest
    | other => other
  | .exc t v =>
    match stack with
    | top :: rest =>
      ⟨top.label, top.children ++ [.node (excLabel isFailure e.path e.lineno e.funcName t v) []]⟩
        :: rest
    | [] => []

/-- Collapse the node stack left over after the event loop (unmatched Calls
stay attached to their parents, as the source attaches them at push time). -/
def collapseStack (f : TFrame) : List TFrame → TFrame
  | [] => f
  | g :: rest => collapseStack ⟨g.label, g.children ++ [.node f.label f.children]⟩ rest

/-- `_TraceContext._build_tree` from the source: root label from the first
event, then the stack loop over the remaining events; an empty event log
yields the `No events captured` tree. -/
def _build_tree (isFailure : Bool) (events : List Event) : RTree :=
  match events with
  | [] => .node "No events captured" []
  | e :: rest =>
    match List.foldl (buildStep isFailure) [⟨callLabel e.path e.lineno e.funcName, []⟩] rest with
    | [] => .node "No events captured" []
    | f :: fs =>
      let r := collapseStack f fs
      .node r.label r.children

/-- The body handed to the renderer's panel: either plain text (the warning
reporter's single site line) or a built tree. -/
inductive PanelBody where
  | text (s : String)
  | tree (t : RTree)

/-- The renderer's `Panel` value as constructed by the source: title,
subtitle, border style, padding and body. -/
structure Panel where
  title : String
  subtitle : String
  borderStyle : String
  padding : Nat × Nat
  body : PanelBody

/-- A formatted report: a plain multi-line string or a structured panel. -/
inductive TraceOutput where
  | plain (s : String)
  | panel (p : Panel)

/-- Modelled from the spec: the stringification of a structured panel.  The
renderer (the external pretty-printing library) is out of scope for the
source; the spec treats it as a generic structured text renderer whose
stringified panel carries the panel's title, body and subtitle.  Tree bodies
are abstracted to their root label (no claim depends on their text). -/
def panelStrM (p : Panel) : String :=
  p.title ++ "\n" ++
    (match p.body with
     | .text s => s
     | .tree (.node l _) => l) ++ "\n" ++ p.subtitle

/-- `str(trace_output)` as applied by the output sink: the identity on plain
strings, the renderer's stringification on panels. -/
def stringifyOutput : TraceOutput → String
  | .plain s => s
  | .panel p => panelStrM p

/-- What the output sink does with one report: hand the string back to its
caller, append to a log file, print a panel through the rich console, or
print a plain string. -/
inductive SinkEffect where
  | returned (s : String)
  | fileAppend (path : String) (content : String)
  | consoleRich (p : Panel)
  | consolePlain (s : String)

/-- The configuration captured by `trace_calls` and `_TraceContext`. -/
structure WrapConfig where
  logFile : Option String
  returnTrace : Bool
  traceOnSuccess : Bool
  useRich : Bool

/-- `_TraceContext.output_trace` from the source: return the stringified
report when `return_trace` is set; else append it plus a newline to the log
file when one is configured; else print — through the rich console when in
rich mode and the report is not already a string, else as plain text. -/
def output_trace (cfg : WrapConfig) (out : TraceOutput) : SinkEffect :=
  if cfg.returnTrace then .returned (stringifyOutput out)
  else
    match cfg.logFile with
    | some p => .fileAppend p (stringifyOutput out ++ "\n")
    | none =>
      match out, cfg.useRich with
      | .panel pan, true => .consoleRich pan
      | o, _ => .consolePlain (stringifyOutput o)

/-- `_TraceContext.format_trace` from the source: the plain formatter when
rich mode is off; otherwise a panel around the built tree, red with the
last-exception title when the run fails with a recorded exception, else the
green success title with a `no exception`/`exception handled` subtitle. -/
def format_trace (useRich : Bool) (events : List Event) (excInfo : Option ExcInfo)
    (status : String) (isFailure : Bool) : TraceOutput :=
  if !useRich then .plain (_format_plain events excInfo status isFailure)
  else
    match isFailure, excInfo with
    | true, some info =>
      .panel ⟨"[red bold]EXCEPTION: " ++ info.excType ++ "[/red bold]",
              info.excValue ++ " at " ++ info.relPath ++ ":" ++ toString info.lineno,
              "red", (1, 2), .tree (_build_tree isFailure events)⟩
    | _, _ =>
      .panel ⟨"[green bold]EXECUTION TRACE[/green bold]",
              (match excInfo with
               | none => "no exception"
               | some _ => "exception handled"),
              "green", (1, 2), .tree (_build_tree isFailure events)⟩

/-- A Python exception as the wrapper observes it: its type and message. -/
structure Exn where
  exnType : String
  exnMsg : String
deriving DecidableEq

/-- One report emitted by the wrapper: the status string and failure flag it
was formatted with, and the sink effect it was routed to. -/
structure Report where
  status : String
  isFailure : Bool
  effect : SinkEffect

/-- The observable outcome of one invocation of the wrapped callable: the
value or exception handed to the caller, the reports routed through the
output sink in order, the hook installed while the callable ran, and the
hook left installed on exit. -/
structure WrapResult (α H : Type) where
  result : Except Exn α
  reports : List Report
  hookDuring : Option H
  hookAfter : Option H

/-- `trace_calls.decorator.wrapper` from the source, as a function of the
traced call's outcome.  `hook0` is the hook returned by `sys.gettrace()`
before installation, `ctxHook` the fresh context's intake hook, and
`events`/`excInfo` the context state accumulated while the callable ran.
On a normal return the success branch emits a PASS report when
`trace_on_success` is set, and the `finally` block sees no in-flight
exception; on an exception the success branch is skipped and the `finally`
block, after restoring the hook, sees the in-flight exception and emits a
FAIL report before the original exception propagates.  (Exceptions raised
by the output sink itself — the §9 edge case — are outside this model.) -/
def wrapperRun {α H : Type} (cfg : WrapConfig) (hook0 : Option H) (ctxHook : H)
    (events : List Event) (excInfo : Option ExcInfo)
    (funcResult : Except Exn α) : WrapResult α H :=
  match funcResult with
  | .ok v =>
    { result := .ok v
      reports :=
        if cfg.traceOnSuccess then
          [⟨"PASS", false, output_trace cfg (format_trace cfg.useRich events excInfo "PASS" false)⟩]
        else []
      hookDuring := some ctxHook
      hookAfter := hook0 }
  | .error e =>
    { result := .error e
      reports :=
        [⟨"FAIL", true, output_trace cfg (format_trace cfg.useRich events excInfo "FAIL" true)⟩]
      hookDuring := some ctxHook
      hookAfter := hook0 }

/-- `log_warning` from the source: build the single-site report (panel in
rich mode, plain five-line block otherwise) and route it through the same
three-way sink logic, returning the string only when `return_trace` is set.
`relPath`/`lineno` are the already-resolved location of the immediate
caller (one frame up). -/
def log_warning (warningType message relPath : String) (lineno : Nat)
    (logFile : Option String) (returnTrace useRich : Bool) :
    Option String × List SinkEffect :=
  if useRich then
    let pan : Panel :=
      ⟨"[yellow bold]WARNING: " ++ warningType ++ "[/yellow bold]", message, "yellow", (1, 2),
       .text ("[yellow]↳[/yellow] " ++ relPath ++ ":" ++ toString lineno ++ " (warning_site)")⟩
    if returnTrace then (some (panelStrM pan), [])
    else
      match logFile with
      | some f => (none, [.fileAppend f (panelStrM pan ++ "\n")])
      | none => (none, [.consoleRich pan])
  else
    let traceStr := joinLines
      ["WARNING: " ++ warningType ++ ": " ++ message ++ " at " ++ relPath ++ ":" ++ toString lineno,
       "=== BACKTRACE ===",
       "↳ " ++ relPath ++ ":" ++ toString lineno ++ " (warning_site)",
       "=================",
       "STATUS: WARNING"]
    if returnTrace then (some traceStr, [])
    else
      match logFile with
      | some f => (none, [.fileAppend f (traceStr ++ "\n")])
      | none => (none, [.consolePlain traceStr])

/-- `s` contains `pat` as a contiguous substring. -/
def ContainsStr (s pat : String) : Prop :=
  ∃ a b : String, s = a ++ pat ++ b

/-- C1: when the traced function raises, the wrapper produces exactly one
report — a FAIL report, with no PASS report before or after it — and the
exception handed to the caller is the original one, unchanged in type and
message (the `.error e` the callable produced). -/
theorem c1_raise_one_fail_report {α H : Type} (cfg : WrapConfig) (hook0 : Option H)
    (ctxHook : H) (events : List Event) (excInfo : Option ExcInfo) (e : Exn) :
    (wrapperRun (α := α) cfg hook0 ctxHook events excInfo (.error e)).result = .error e ∧
    (wrapperRun (α := α) cfg hook0 ctxHook events excInfo (.error e)).reports.length = 1 ∧
    ((wrapperRun (α := α) cfg hook0 ctxHook events excInfo (.error e)).reports.filter
      (fun rep => rep.status == "FAIL" && rep.isFailure)).length = 1 ∧
    ((wrapperRun (α := α) cfg hook0 ctxHook events excInfo (.error e)).reports.filter
      (fun rep => rep.status == "PASS")).length = 0 :=
  ⟨rfl, rfl, rfl, rfl⟩

/-- C2: on every exit path of the wrapped callable — normal return or
exception — the process-wide trace hook is restored to exactly the value it
held before installation (and during the call it is the fresh context's
intake hook, so it is never unconditionally cleared). -/
theorem c2_hook_restored {α H : Type} (cfg : WrapConfig) (hook0 : Option H)
    (ctxHook : H) (events : List Event) (excInfo : Option ExcInfo)
    (fr : Except Exn α) :
    (wrapperRun cfg hook0 ctxHook events excInfo fr).hookAfter = hook0 ∧
    (wrapperRun cfg hook0 ctxHook events excInfo fr).hookDuring = some ctxHook := by
  cases fr <;> exact ⟨rfl, rfl⟩

/-- A return-trace configuration: no log file, `return_trace=True`,
`trace_on_success=True`, plain mode. -/
def c3cfg : WrapConfig := ⟨none, true, true, false⟩

/-- C3 counterexample: with the return-trace option set, the caller of the
instrumented call receives the function's own result (`"result-of-f"`), not
the formatted report — the wrapper discards `output_trace`'s return value —
so the claim that the formatted value is handed back to the caller of the
instrumented call is false at this input. -/
theorem c3_counterexample :
    (wrapperRun (H := Nat) c3cfg none 0 [] none (.ok "result-of-f")).result
        = .ok "result-of-f" ∧
    (wrapperRun (H := Nat) c3cfg none 0 [] none (.ok "result-of-f")).reports =
      [⟨"PASS", false, .returned (_format_plain [] none "PASS" false)⟩] ∧
    _format_plain [] none "PASS" false ≠ "result-of-f" :=
  ⟨rfl, rfl, by decide⟩

/-- `effect.isConsole` tests for either console destination. -/
def SinkEffect.isConsole : SinkEffect → Bool
  | .consoleRich _ => true
  | .consolePlain _ => true
  | _ => false

/-- C3 (amended): with the return-trace option set, `output_trace` returns
the formatted value (stringified if structured) to its immediate caller and
performs no file or console I/O — but the wrapping combinator discards that
returned value, so the caller of the instrumented call receives the
function's own result; otherwise a configured log file takes priority over
console printing, checked in that fixed order. -/
theorem c3_amended_sink_precedence (cfg : WrapConfig) (out : TraceOutput) :
    (cfg.returnTrace = true → output_trace cfg out = .returned (stringifyOutput out)) ∧
    (cfg.returnTrace = false → ∀ p, cfg.logFile = some p →
      output_trace cfg out = .fileAppend p (stringifyOutput out ++ "\n")) ∧
    (cfg.returnTrace = false → cfg.logFile = none →
      (output_trace cfg out).isConsole = true) ∧
    (∀ (α H : Type) (hook0 : Option H) (ctxHook : H) (events : List Event)
       (excInfo : Option ExcInfo) (v : α),
      (wrapperRun cfg hook0 ctxHook events excInfo (.ok v)).result = .ok v) := by
  refine ⟨?_, ?_, ?_, ?_⟩
  · intro h
    simp [output_trace, h]
  · intro h p hp
    simp [output_trace, h, hp]
  · intro h hl
    simp only [output_trace, h, hl, if_false, Bool.false_eq_true]
    cases out with
    | plain s => simp [SinkEffect.isConsole]
    | panel pan => cases cfg.useRich <;> simp [SinkEffect.isConsole]
  · intro α H hook0 ctxHook events excInfo v
    rfl

/-- Witness for the amended C3 at concrete inputs: the sink returns the
report string to its caller, and the instrumented call's caller still gets
the function's result. -/
theorem c3_amended_witness :
    output_trace c3cfg (.plain "report-text") = .returned "report-text" ∧
    (wrapperRun (H := Nat) c3cfg none 0 [] none (.ok (5 : Nat))).result = .ok 5 :=
  ⟨(c3_amended_sink_precedence c3cfg (.plain "report-text")).1 rfl,
   (c3_amended_sink_precedence c3cfg (.plain "report-text")).2.2.2 Nat Nat none 0 [] none 5⟩

/-- C4: for a Call event taken while recording is active on a traceable
file, the event is recorded at the caller's path and line when the frame has
a caller and is not the root frame, and at the frame's own current path and
line when the frame is the root frame or has no caller. -/
theorem c4_call_attribution (env : TraceEnv) (ctx : Ctx) (frame : Frame)
    (h1 : _should_trace env frame.codeFile = true) (h2 : ctx.started = true) :
    (∀ back, frame.fBack = some back → ctx.rootFrame ≠ some frame.frameId →
      (trace_func env ctx frame .call).events =
        ctx.events ++ [⟨.call, env.relp back.codeFile, back.lineno, _get_function_name frame⟩]) ∧
    ((frame.fBack = none ∨ ctx.rootFrame = some frame.frameId) →
      (trace_func env ctx frame .call).events =
        ctx.events ++ [⟨.call, env.relp frame.codeFile, frame.lineno, _get_function_name frame⟩]) := by
  constructor
  · intro back hb hroot
    simp [trace_func, h1, h2, hb, hroot]
  · rintro (h | h)
    · simp [trace_func, h1, h2, h]
    · cases hb : frame.fBack with
      | none => simp [trace_func, h1, h2, hb]
      | some back => simp [trace_func, h1, h2, hb, h]

/-- The tracer's import-time globals used by the concrete scenarios below:
own file `/w/backtrace.py`, installation prefix `/usr`, working directory
`/w`, and an identity relative-path resolver. -/
def wEnv : TraceEnv := ⟨"/w/backtrace.py", "/usr", "/w", fun s => s⟩

/-- A caller frame at `/w/main.py:12`. -/
def c4back : FrameBack := ⟨"/w/main.py", 12⟩

/-- A non-root frame in `/w/app.py` whose caller is `c4back`. -/
def c4frame : Frame := ⟨"/w/app.py", 7, 3, 42, "child", none, some c4back⟩

/-- An active recording context whose root frame is a different frame. -/
def c4ctx : Ctx := ⟨99, [], none, true, some 41⟩

/-- Witness for C4 at concrete inputs: the Call event is attributed to the
caller's location `/w/main.py:12`. -/
theorem c4_witness :
    _should_trace wEnv c4frame.codeFile = true ∧ c4ctx.started = true ∧
    (trace_func wEnv c4ctx c4frame .call).events =
      [⟨.call, "/w/main.py", 12, "child"⟩] :=
  ⟨by decide, rfl,
   (c4_call_attribution wEnv c4ctx c4frame (by decide) rfl).1 c4back rfl (by decide)⟩

/-- `p` lies under directory `d`: it equals `d` or starts with `d`
followed by a path separator. -/
def underDir (d p : String) : Bool :=
  p == d || (d.data ++ ['/']).isPrefixOf p.data

/-- Split a character list at every occurrence of `c`. -/
def splitOnChar (c : Char) : List Char → List (List Char)
  | [] => [[]]
  | x :: xs =>
    if x = c then [] :: splitOnChar c xs
    else
      match splitOnChar c xs with
      | [] => [[x]]
      | s :: rest => (x :: s) :: rest

/-- The `/`-separated segments of a path. -/
def pathSegments (p : String) : List String :=
  (splitOnChar '/' p.data).map String.mk

/-- Follows the spec's words for claim C5 (for comparison with
`_should_trace`): traceable iff the path is not the tracer's own file, does
not contain a segment that names a standard package-installation directory,
and is not under the runtime's installation prefix unless it is also under
the working directory. -/
def isTraceableSpec (env : TraceEnv) (p : String) : Bool :=
  !(p == env.backtraceFile)
    && !((pathSegments p).contains "site-packages" || (pathSegments p).contains "dist-packages")
    && !(underDir env.prefixDir p && !(underDir env.cwd p))

/-- C5 counterexample: `_should_trace` tests raw substring containment, not
whole path segments or directory ancestry.  The path
`/w/my-site-packages-backup/app.py` contains `site-packages` as a substring
but has no segment named `site-packages` and is not under the installation
prefix, so the code rejects it while the claim's characterisation marks it
traceable. -/
theorem c5_counterexample :
    _should_trace wEnv "/w/my-site-packages-backup/app.py" = false ∧
    isTraceableSpec wEnv "/w/my-site-packages-backup/app.py" = true := by
  constructor <;> decide

/-- C5 (amended): `_should_trace` returns false exactly for the tracer's own
implementation file, any path containing `site-packages` or `dist-packages`
as a substring, and any path containing the runtime's installation prefix as
a substring while not containing the working directory as a substring, and
true otherwise; consequently a hook callback for a frame in such a file
leaves the context — in particular the event log — completely unchanged. -/
theorem c5_amended_filter (env : TraceEnv) (p : String) :
    (_should_trace env p = true ↔
      (p ≠ env.backtraceFile ∧ strContains p "site-packages" = false ∧
       strContains p "dist-packages" = false ∧
       (strContains p env.prefixDir = false ∨ strContains p env.cwd = true))) ∧
    (∀ (ctx : Ctx) (frame : Frame) (ev : RawEvent),
      _should_trace env frame.codeFile = false → trace_func env ctx frame ev = ctx) := by
  constructor
  · unfold _should_trace
    split_ifs with h1 h2 h3 h4
    · simp [h1]
    · simp [h2]
    · simp [h3]
    · rw [Bool.and_eq_true, Bool.not_eq_true'] at h4
      simp [h4.1, h4.2]
    · rw [Bool.and_eq_true] at h4
      push_neg at h4
      simp only [Bool.not_eq_true] at h2 h3
      simp only [true_iff]
      refine ⟨h1, h2, h3, ?_⟩
      by_cases hp : strContains p env.prefixDir = true
      · right
        have := h4 hp
        simpa [Bool.not_eq_true'] using this
      · left
        simpa [Bool.not_eq_true] using hp
  · intro ctx frame ev h
    simp [trace_func, h]

/-- A frame for standard-library code under the installation prefix. -/
def c5frame : Frame := ⟨"/usr/lib/python3/os.py", 5, 100, 77, "getcwd", none, none⟩

/-- An active recording context used to witness that non-traceable frames
record nothing. -/
def c5ctx : Ctx := ⟨99, [⟨.call, "app.py", 1, "f"⟩], none, true, some 41⟩

/-- Witness for the amended C5 at concrete inputs: a user-code path under
the working directory is traceable, and a hook callback from a
standard-library frame leaves the context unchanged. -/
theorem c5_amended_witness :
    _should_trace wEnv "/w/app.py" = true ∧
    trace_func wEnv c5ctx c5frame .ret = c5ctx :=
  ⟨(c5_amended_filter wEnv "/w/app.py").1.mpr (by decide),
   (c5_amended_filter wEnv "/usr/lib/python3/os.py").2 c5ctx c5frame .ret (by decide)⟩

/-- Each iteration of the plain-format loop appends exactly one body line. -/
theorem formatPlainStep_fst_length (isF : Bool) (acc : List String × Int) (e : Event) :
    ((formatPlainStep isF acc e).1).length = acc.1.length + 1 := by
  rcases e with ⟨k, p, l, f⟩
  cases k with
  | call => simp [formatPlainStep]
  | ret => simp [formatPlainStep]
  | exc t v => cases isF <;> simp [formatPlainStep]

/-- The plain-format loop produces one body line per event. -/
theorem foldl_formatPlainStep_length (isF : Bool) (events : List Event)
    (acc : List String × Int) :
    ((List.foldl (formatPlainStep isF) acc events).1).length
      = acc.1.length + events.length := by
  induction events generalizing acc with
  | nil => simp
  | cons e es ih =>
    rw [List.foldl_cons, ih, formatPlainStep_fst_length]
    simp only [List.length_cons]
    omega

/-- C6: for every event log and status drawn from PASS/FAIL, the plain-mode
report is exactly the header line, the literal `=== BACKTRACE ===` line, one
body line per event, the literal `=================` line, and the final
`STATUS: PASS` or `STATUS: FAIL` line. -/
theorem c6_plain_structure (events : List Event) (excInfo : Option ExcInfo)
    (status : String) (isFailure : Bool)
    (h : status = "PASS" ∨ status = "FAIL") :
    ∃ body : List String,
      formatPlainLines events excInfo status isFailure =
        formatHeader events excInfo isFailure :: "=== BACKTRACE ==="
          :: body ++ ["=================", "STATUS: " ++ status] ∧
      body.length = events.length ∧
      ("STATUS: " ++ status = "STATUS: PASS" ∨ "STATUS: " ++ status = "STATUS: FAIL") := by
  refine ⟨(List.foldl (formatPlainStep isFailure) ([], 0) events).1, rfl, ?_, ?_⟩
  · simpa using foldl_formatPlainStep_length isFailure events ([], 0)
  · rcases h with h | h <;> subst h
    · exact Or.inl rfl
    · exact Or.inr rfl

/-- Witness for C6 at a concrete input: the empty event log with status
PASS yields exactly the framing lines with an empty body. -/
theorem c6_witness :
    ("PASS" = "PASS" ∨ "PASS" = "FAIL") ∧
    (∃ body : List String,
      formatPlainLines [] none "PASS" false =
        formatHeader [] none false :: "=== BACKTRACE ==="
          :: body ++ ["=================", "STATUS: " ++ "PASS"] ∧
      body.length = ([] : List Event).length ∧
      ("STATUS: " ++ "PASS" = "STATUS: PASS" ∨ "STATUS: " ++ "PASS" = "STATUS: FAIL")) :=
  ⟨Or.inl rfl, c6_plain_structure [] none "PASS" false (Or.inl rfl)⟩

/-- The depth change contributed by one event: `+1` for Call, `-1` for
Return, `0` for Exception. -/
def kindDelta (e : Event) : Int :=
  match e.kind with
  | .call => 1
  | .ret => -1
  | .exc _ _ => 0

/-- Each iteration of the plain-format loop moves the depth counter by the
event's depth change. -/
theorem formatPlainStep_snd (isF : Bool) (acc : List String × Int) (e : Event) :
    (formatPlainStep isF acc e).2 = acc.2 + kindDelta e := by
  rcases e with ⟨k, p, l, f⟩
  cases k with
  | call => simp [formatPlainStep, kindDelta]
  | ret => simp [formatPlainStep, kindDelta]; ring
  | exc t v => cases isF <;> simp [formatPlainStep, kindDelta]

/-- The depth counter after the plain-format loop is the initial depth plus
the number of Call events minus the number of Return events. -/
theorem foldl_formatPlainStep_depth (isF : Bool) (events : List Event)
    (acc : List String × Int) :
    (List.foldl (formatPlainStep isF) acc events).2
      = acc.2 + (events.countP Event.isCall : Int) - (events.countP Event.isRet : Int) := by
  induction events generalizing acc with
  | nil => simp
  | cons e es ih =>
    rw [List.foldl_cons, ih, formatPlainStep_snd]
    rcases e with ⟨k, p, l, f⟩
    cases k <;>
      simp [kindDelta, Event.isCall, Event.isRet, List.countP_cons] <;>
      omega

/-- C7: for every event log in which the Call events are matched by the
Return events (equal counts, as in any well-matched call tree), the depth
counter maintained by the plain formatter is 0 after the last event. -/
theorem c7_depth_zero (isF : Bool) (events : List Event)
    (h : events.countP Event.isCall = events.countP Event.isRet) :
    (List.foldl (formatPlainStep isF) ([], 0) events).2 = 0 := by
  rw [foldl_formatPlainStep_depth isF events ([], 0)]
  simp [h]

/-- A two-event log: one Call with its matching Return. -/
def c7events : List Event :=
  [⟨.call, "a.py", 1, "f"⟩, ⟨.ret, "a.py", 2, "f"⟩]

/-- Witness for C7 at a concrete input: one Call and its matching Return
bring the depth counter back to 0. -/
theorem c7_witness :
    c7events.countP Event.isCall = c7events.countP Event.isRet ∧
    (List.foldl (formatPlainStep false) ([], 0) c7events).2 = 0 :=
  ⟨by decide, c7_depth_zero false c7events (by decide)⟩

/-- One iteration of the tree-builder loop never empties a nonempty node
stack: Call pushes, Return pops only behind the `len(stack) > 1` guard,
Exception rewrites the top in place. -/
theorem buildStep_length (isF : Bool) (stack : List TFrame) (e : Event)
    (h : 1 ≤ stack.length) : 1 ≤ (buildStep isF stack e).length := by
  rcases e with ⟨k, p, l, f⟩
  cases k with
  | call => simp [buildStep]
  | ret =>
    match stack with
    | [] => simp at h
    | [top] => simp [buildStep]
    | top :: next :: rest => simp [buildStep]
  | exc t v =>
    match stack with
    | [] => simp at h
    | top :: rest => simp [buildStep]

/-- The tree-builder loop keeps at least one node on its stack from any
nonempty starting stack. -/
theorem foldl_buildStep_length (isF : Bool) (events : List Event)
    (stack : List TFrame) (h : 1 ≤ stack.length) :
    1 ≤ (List.foldl (buildStep isF) stack events).length := by
  induction events generalizing stack with
  | nil => simpa using h
  | cons e es ih =>
    rw [List.foldl_cons]
    exact ih _ (buildStep_length isF stack e h)

/-- C8: on every event log — including ones with unmatched Return events —
the structured tree builder's node stack never drops below one element at
any point of the loop, and the plain formatter still produces its complete
framed output, one body line per event plus the four framing lines. -/
theorem c8_formatters_tolerate_unmatched (isF : Bool) (e0 : Event) (rest : List Event)
    (n : Nat) (excInfo : Option ExcInfo) (status : String) :
    1 ≤ (List.foldl (buildStep isF) [⟨callLabel e0.path e0.lineno e0.funcName, []⟩]
          (rest.take n)).length ∧
    (formatPlainLines (e0 :: rest) excInfo status isF).length = (e0 :: rest).length + 4 := by
  constructor
  · exact foldl_buildStep_length isF (rest.take n) _ (by simp)
  · have hb := foldl_formatPlainStep_length isF (e0 :: rest) ([], 0)
    simp only [formatPlainLines, List.length_cons, List.length_append,
      List.length_nil] at hb ⊢
    omega

/-- A substring of `s` is a substring of `s ++ t`. -/
theorem ContainsStr.appendRight {s pat : String} (h : ContainsStr s pat) (t : String) :
    ContainsStr (s ++ t) pat := by
  obtain ⟨a, b, rfl⟩ := h
  exact ⟨a, b ++ t, String.append_assoc (a ++ pat) b t⟩

/-- A substring of `s` is a substring of `t ++ s`. -/
theorem ContainsStr.appendLeft {s pat : String} (h : ContainsStr s pat) (t : String) :
    ContainsStr (t ++ s) pat := by
  obtain ⟨a, b, rfl⟩ := h
  refine ⟨t ++ a, b, ?_⟩
  rw [← String.append_assoc t (a ++ pat) b, ← String.append_assoc t a pat]

/-- C9: calling the warning reporter with a `UserWarning("deprecated")` and
return-report set to true (no log file; either presentation mode, from any
call site) returns a string containing both `WARNING: UserWarning` and
`deprecated`. -/
theorem c9_warning_report_contains (relPath : String) (lineno : Nat) (useRich : Bool) :
    ∃ s, (log_warning "UserWarning" "deprecated" relPath lineno none true useRich).1 = some s ∧
      ContainsStr s "WARNING: UserWarning" ∧ ContainsStr s "deprecated" := by
  cases useRich with
  | true =>
    refine ⟨"[yellow bold]WARNING: " ++ "UserWarning" ++ "[/yellow bold]" ++ "\n"
        ++ ("[yellow]↳[/yellow] " ++ relPath ++ ":" ++ toString lineno ++ " (warning_site)")
        ++ "\n" ++ "deprecated", rfl, ?_, ?_⟩
    · exact ((((ContainsStr.appendRight
        ⟨"[yellow bold]", "[/yellow bold]", by decide⟩ _).appendRight _).appendRight
          _).appendRight _)
    · exact ContainsStr.appendLeft ⟨"", "", by decide⟩ _
  | false =>
    refine ⟨("WARNING: " ++ "UserWarning" ++ ": " ++ "deprecated" ++ " at " ++ relPath
          ++ ":" ++ toString lineno) ++ "\n"
        ++ ("=== BACKTRACE ===" ++ "\n"
        ++ (("↳ " ++ relPath ++ ":" ++ toString lineno ++ " (warning_site)") ++ "\n"
        ++ ("=================" ++ "\n" ++ "STATUS: WARNING"))), rfl, ?_, ?_⟩
    · exact ((((((((ContainsStr.appendRight
        ⟨"", "", by decide⟩ _).appendRight _).appendRight _).appendRight _).appendRight
          _).appendRight _).appendRight _).appendRight _)
    · exact (((((((ContainsStr.appendLeft
        ⟨"", "", by decide⟩ _).appendRight _).appendRight _).appendRight _).appendRight
          _).appendRight _).appendRight _)

/-- C10: with `is_failure` true but no exception recorded, `format_trace`
falls back to the success-style presentation: in rich mode the panel carries
the green success title, green border and `no exception` subtitle; in plain
mode the header is the `EXECUTION TRACE (no exception)` line (with the first
event's location when any event exists) while the trailer still reads
`STATUS: FAIL`. -/
theorem c10_no_exception_failure_fallback (events : List Event) :
    format_trace true events none "FAIL" true =
      .panel ⟨"[green bold]EXECUTION TRACE[/green bold]", "no exception", "green", (1, 2),
              .tree (_build_tree true events)⟩ ∧
    format_trace false events none "FAIL" true =
      .plain (_format_plain events none "FAIL" true) ∧
    (formatPlainLines events none "FAIL" true).head? = some (successHeader events) ∧
    (events = [] → successHeader events = "EXECUTION TRACE (no exception)") ∧
    (∀ e rest, events = e :: rest →
      successHeader events =
        "EXECUTION TRACE (no exception) at " ++ e.path ++ ":" ++ toString e.lineno) ∧
    (formatPlainLines events none "FAIL" true).getLast? = some "STATUS: FAIL" := by
  refine ⟨rfl, rfl, rfl, ?_, ?_, ?_⟩
  · intro h; subst h; rfl
  · intro e rest h; subst h; rfl
  · have hsplit : formatPlainLines events none "FAIL" true =
        (formatHeader events none true :: "=== BACKTRACE ==="
          :: ((List.foldl (formatPlainStep true) ([], 0) events).1 ++ ["================="]))
          ++ ["STATUS: " ++ "FAIL"] := by
      simp [formatPlainLines, List.append_assoc]
    rw [hsplit, List.getLast?_concat]
    rfl

/-- A one-event log used to witness C10. -/
def c10ev : Event := ⟨.call, "a.py", 3, "f"⟩

/-- Witness for C10 at a concrete input: one recorded Call event, failing
run, empty exception slot. -/
theorem c10_witness :
    format_trace true [c10ev] none "FAIL" true =
      .panel ⟨"[green bold]EXECUTION TRACE[/green bold]", "no exception", "green", (1, 2),
              .tree (_build_tree true [c10ev])⟩ ∧
    successHeader [c10ev] =
      "EXECUTION TRACE (no exception) at " ++ "a.py" ++ ":" ++ toString (3 : Nat) ∧
    (formatPlainLines [c10ev] none "FAIL" true).getLast? = some "STATUS: FAIL" :=
  ⟨(c10_no_exception_failure_fallback [c10ev]).1,
   (c10_no_exception_failure_fallback [c10ev]).2.2.2.2.1 c10ev [] rfl,
   (c10_no_exception_failure_fallback [c10ev]).2.2.2.2.2⟩
